import Mathlib

/-!
Verification development for the Ethereum-compatibility bridge of the
iotex-core repository: the RLP transaction codec (`action/rlp_tx.go`),
the `Transfer` action (`action/transfer.go`), and models of the web3
RPC handler operations that are exercised by the repository's
integrity tests.

Machine integers are embedded as `Nat`/`Int` with explicit wrap-around
where the Go code truncates.  External library primitives (go-ethereum
RLP and EIP-155 signing, go-pkgs secp256k1) are modelled as executable
idealized functions, each marked `Modelled from the spec:` in its doc
comment.
-/

/-! ## Byte-sequence helpers (big.Int.Bytes / SetBytes of the Go code) -/

/-- Little-endian byte value of a byte list (each entry is one byte). -/
def bytesToNatLE : List Nat → Nat
  | [] => 0
  | b :: bs => b + 256 * bytesToNatLE bs

/-- Fixed-width little-endian byte encoding of `n` on `k` bytes. -/
def natToBytesLE : Nat → Nat → List Nat
  | 0, _ => []
  | k + 1, n => n % 256 :: natToBytesLE k (n / 256)

/-- Big-endian value of a byte list, as `copy(sig[32-rSize:32], r.Bytes())`
followed by `SetBytes` reads it. -/
def bytesToNatBE (bs : List Nat) : Nat := bytesToNatLE bs.reverse

/-- The 32-byte big-endian, zero-padded encoding of `n`, as produced by
padding `r.Bytes()` to 32 bytes in `getSignatureFromRLPTX`. -/
def natToBytesBE32 (n : Nat) : List Nat := (natToBytesLE 32 n).reverse

theorem natToBytesLE_length (k n : Nat) : (natToBytesLE k n).length = k := by
  induction k generalizing n with
  | zero => rfl
  | succ k ih => simp [natToBytesLE, ih]

theorem natToBytesBE32_length (n : Nat) : (natToBytesBE32 n).length = 32 := by
  simp [natToBytesBE32, natToBytesLE_length]

theorem bytesToNatLE_natToBytesLE (k : Nat) :
    ∀ n : Nat, bytesToNatLE (natToBytesLE k n) = n % 256 ^ k := by
  induction k with
  | zero => intro n; simp [natToBytesLE, bytesToNatLE, Nat.mod_one]
  | succ k ih =>
    intro n
    show n % 256 + 256 * bytesToNatLE (natToBytesLE k (n / 256)) = n % 256 ^ (k + 1)
    rw [ih]
    have h256 : (256 : Nat) ^ (k + 1) = 256 * 256 ^ k := by
      rw [pow_succ]; ring
    rw [h256, Nat.mod_mul]

theorem bytesToNatBE_natToBytesBE32 (n : Nat) (h : n < 2 ^ 256) :
    bytesToNatBE (natToBytesBE32 n) = n := by
  have hpow : (256 : Nat) ^ 32 = 2 ^ 256 := by norm_num
  rw [natToBytesBE32, bytesToNatBE, List.reverse_reverse, bytesToNatLE_natToBytesLE,
    hpow, Nat.mod_eq_of_lt h]

theorem take_len_append (l₁ l₂ : List Nat) : (l₁ ++ l₂).take l₁.length = l₁ := by
  induction l₁ with
  | nil => rfl
  | cons a t ih =>
    show a :: (t ++ l₂).take t.length = a :: t
    rw [ih]

theorem drop_len_append (l₁ l₂ : List Nat) : (l₁ ++ l₂).drop l₁.length = l₂ := by
  induction l₁ with
  | nil => rfl
  | cons a t ih => exact ih

/-- Decomposition of a 65-byte signature `r-bytes ++ s-bytes ++ [recovery byte]`
into the pieces the Go code reads back out of it. -/
theorem sigParts (A B : List Nat) (x : Nat) (hA : A.length = 32) (hB : B.length = 32) :
    (A ++ B ++ [x]).take 32 = A ∧
    ((A ++ B ++ [x]).drop 32).take 32 = B ∧
    ((A ++ B ++ [x]).drop 64).headD 0 = x ∧
    (A ++ B ++ [x]).length = 65 := by
  have hassoc : A ++ B ++ [x] = A ++ (B ++ [x]) := List.append_assoc A B [x]
  have h1 : (A ++ B ++ [x]).take 32 = A := by
    rw [hassoc, ← hA]; exact take_len_append A (B ++ [x])
  have h2 : (A ++ B ++ [x]).drop 32 = B ++ [x] := by
    rw [hassoc, ← hA]; exact drop_len_append A (B ++ [x])
  have h3 : (A ++ B ++ [x]).drop 64 = [x] := by
    have hAB : (A ++ B).length = 64 := by simp [hA, hB]
    rw [← hAB]
    exact drop_len_append (A ++ B) [x]
  refine ⟨h1, ?_, ?_, by simp [hA, hB]⟩
  · rw [h2, ← hB]; exact take_len_append B [x]
  · rw [h3]; rfl

/-! ## Modelled external primitives -/

/-- Modelled from the spec: the secp256k1 public key derived from a private
key (go-pkgs `crypto.PrivateKey.PublicKey`).  Private keys are embedded as
`Nat`; the derivation only needs to be injective. -/
def pubkeyOf (sk : Nat) : Nat := sk + 1

/-- One step of the modelled hash fold. -/
def hashStep (a n : Nat) : Nat := (a * 1099511628211 + n) % 2 ^ 256

/-- Modelled from the spec: Keccak-256 over an encoded field sequence,
as a deterministic executable function into 256-bit values. -/
def hashFold (l : List Nat) : Nat := l.foldl hashStep 5381

theorem hashFold_lt (l : List Nat) : hashFold l < 2 ^ 256 := by
  have aux : ∀ (l : List Nat) (a : Nat), a < 2 ^ 256 → l.foldl hashStep a < 2 ^ 256 := by
    intro l
    induction l with
    | nil => intro a ha; exact ha
    | cons x t ih =>
      intro a _
      exact ih (hashStep a x) (Nat.mod_lt _ (by positivity))
  exact aux l 5381 (by norm_num)

/-- Injective key of an `Int` field, used to feed big.Int fields into the
modelled hash. -/
def intKey (i : Int) : Nat := 2 * i.natAbs + (if i < 0 then 1 else 0)

/-! ## Data model of the codec (`action/rlp_tx.go`) -/

/-- `EmptyAddress` of the action package: the empty recipient string denotes
contract creation. -/
def EmptyAddress : String := ""

/-- The `rlpTransaction` capability set: the six accessors
`Nonce / GasPrice / GasLimit / Recipient / Amount / Payload`, embedded as a
record.  `GasPrice` and `Amount` are `*big.Int` in Go, embedded as `Int`. -/
structure RlpTx where
  nonce : Nat
  gasPrice : Int
  gasLimit : Nat
  recipient : String
  amount : Int
  payload : List Nat
deriving DecidableEq

/-- An unsigned go-ethereum transaction as built by `types.NewTransaction` /
`types.NewContractCreation`: `toAddr = none` is a contract creation (the `to` field; renamed because `to` is reserved). -/
structure EthTx where
  nonce : Nat
  gasPrice : Int
  gasLimit : Nat
  toAddr : Option (List Nat)
  value : Int
  data : List Nat
deriving DecidableEq

/-- A signed go-ethereum transaction: the unsigned fields plus the EIP-155
signature values `(v, r, s)` (non-negative big.Ints on the wire). -/
structure SignedEthTx where
  tx : EthTx
  v : Nat
  r : Nat
  s : Nat
deriving DecidableEq

/-- Modelled from the spec: the composition of go-ethereum RLP encoding of a
signed transaction with hex encoding, the wire string handled by
`EncodeRawTx` / `DecodeRawTx`.  The library guarantees decode ∘ encode = id,
so a wire string is characterized by what it RLP-decodes to (`none` stands
for every malformed string). -/
structure WireStr where
  decoded : Option SignedEthTx
deriving DecidableEq

/-- Error vocabulary of the codec, following the spec's taxonomy (§7):
`chainIDMismatch` is in the vocabulary so that its absence from the code's
behavior is statable. -/
inductive CodecErr
  | invalidAddress (s : String)
  | invalidSigLength (n : Nat)
  | malformedRLP
  | chainIDMismatch
  | recoveryFailed
  | nilAction
deriving DecidableEq

/-! ## Modelled EIP-155 signing primitives -/

/-- Modelled from the spec: the byte written into `v` by go-ethereum's
`EIP155Signer.SignatureValues` from a normalized recovery byte: `recid+35+2·chainID`
when a chain ID is bound, the Homestead `recid+27` when `chainID = 0`
(byte arithmetic wraps at 256 before the chain term is added). -/
def eip155V (recid chainID : Nat) : Nat :=
  if chainID ≠ 0 then (recid + 35) % 256 + 2 * chainID else (recid + 27) % 256

/-- Modelled from the spec: the EIP-155 signing hash
(`types.NewEIP155Signer(chainID).Hash`), binding the chain ID into the hash
when it is non-zero. -/
def eip155Hash (t : EthTx) (chainID : Nat) : Nat :=
  hashFold ([t.nonce, intKey t.gasPrice, t.gasLimit] ++
    (match t.toAddr with | none => [0] | some a => [1, hashFold a]) ++
    [intKey t.value, hashFold t.data] ++
    (if chainID ≠ 0 then [chainID, 0, 0] else []))

/-- Modelled from the spec: the canonical hash of a fully signed transaction
(`keccak256(rlp.Encode(signedTx))` in `rlpSignedHash`). -/
def signedTxHash (st : SignedEthTx) : Nat :=
  hashFold ([st.tx.nonce, intKey st.tx.gasPrice, st.tx.gasLimit] ++
    (match st.tx.toAddr with | none => [0] | some a => [1, hashFold a]) ++
    [intKey st.tx.value, hashFold st.tx.data] ++ [st.v, st.r, st.s])

/-- The in-place normalization `if sc[64] >= 27 { sc[64] -= 27 }` of
`reconstructSignedRlpTxFromSig`. -/
def normalizeSigByte (b : Nat) : Nat := if 27 ≤ b then b - 27 else b

/-- Modelled from the spec: `types.SignTx` under the EIP-155 scheme followed
by `WithSignature` — the idealized secp256k1 signature binds the signer's
public key into `r` and the signed hash into `s`; the recovery id is 0 or 1. -/
def signEth (t : EthTx) (sk chainID : Nat) : SignedEthTx :=
  { tx := t
    r := pubkeyOf sk
    s := eip155Hash t chainID
    v := eip155V ((sk + eip155Hash t chainID) % 2) chainID }

/-- Modelled from the spec: go-pkgs `crypto.RecoverPubkey` on a 65-byte
signature `r-bytes(32) ++ s-bytes(32) ++ [recovery byte]`: legacy recovery
bytes ≥ 27 are reduced by 27; recovery succeeds exactly when the resulting id
is 0 or 1 and the signature matches the hash, returning the embedded public
key. -/
def recoverPubkeyBytes (h : Nat) (sig : List Nat) : Option Nat :=
  if sig.length = 65 then
    if (normalizeSigByte ((sig.drop 64).headD 0) = 0 ∨
        normalizeSigByte ((sig.drop 64).headD 0) = 1) ∧
        bytesToNatBE ((sig.drop 32).take 32) = h % 2 ^ 256 then
      some (bytesToNatBE (sig.take 32))
    else none
  else none

/-! ## The codec operations (`action/rlp_tx.go`) -/

/-- `RlpToEthTx`: builds the unsigned Ethereum transaction from the action's
six accessors.  The recipient string is parsed by the external
`address.FromString`, abstracted as the `parseAddr` parameter.  (The `nil`
action guard of the Go code has no counterpart: Lean values are never nil.) -/
def RlpToEthTx (parseAddr : String → Option (List Nat)) (act : RlpTx) :
    Except CodecErr EthTx :=
  if act.recipient ≠ EmptyAddress then
    match parseAddr act.recipient with
    | none => .error (.invalidAddress act.recipient)
    | some a =>
      .ok { nonce := act.nonce, gasPrice := act.gasPrice, gasLimit := act.gasLimit
            toAddr := some a, value := act.amount, data := act.payload }
  else
    .ok { nonce := act.nonce, gasPrice := act.gasPrice, gasLimit := act.gasLimit
          toAddr := none, value := act.amount, data := act.payload }

/-- `reconstructSignedRlpTxFromSig`: length-checks the signature, normalizes
the copied recovery byte, rebuilds the raw transaction and attaches the
signature under the EIP-155 signer (`r` = bytes 0..31, `s` = bytes 32..63,
`v` from the normalized byte 64 and the chain ID). -/
def reconstructSignedRlpTxFromSig (parseAddr : String → Option (List Nat))
    (tx : RlpTx) (chainID : Nat) (sig : List Nat) : Except CodecErr SignedEthTx :=
  if sig.length ≠ 65 then .error (.invalidSigLength sig.length)
  else
    match RlpToEthTx parseAddr tx with
    | .error e => .error e
    | .ok rawTx =>
      .ok { tx := rawTx
            r := bytesToNatBE (sig.take 32)
            s := bytesToNatBE ((sig.drop 32).take 32)
            v := eip155V (normalizeSigByte ((sig.drop 64).headD 0)) chainID }

/-- `rlpRawHash`: the EIP-155 signing hash of the action's transaction. -/
def rlpRawHash (parseAddr : String → Option (List Nat)) (tx : RlpTx)
    (chainID : Nat) : Except CodecErr Nat :=
  match RlpToEthTx parseAddr tx with
  | .error e => .error e
  | .ok rawTx => .ok (eip155Hash rawTx chainID)

/-- `rlpSignedHash`: reconstructs the signed transaction and returns its
canonical keccak hash. -/
def rlpSignedHash (parseAddr : String → Option (List Nat)) (tx : RlpTx)
    (chainID : Nat) (sig : List Nat) : Except CodecErr Nat :=
  match reconstructSignedRlpTxFromSig parseAddr tx chainID sig with
  | .error e => .error e
  | .ok st => .ok (signedTxHash st)

/-- The recovery byte computed by `getSignatureFromRLPTX`:
`byte(uint32(v.Int64()) - 2*chainID - 8)` — 32-bit wrap-around subtraction
followed by truncation to one byte. -/
def recoveryByte (v chainID : Nat) : Nat :=
  (((v : Int) - 2 * (chainID : Int) - 8) % (2 ^ 32)).toNat % 256

/-- `getSignatureFromRLPTX`: reassembles the 65-byte signature from the
decoded transaction's `(v, r, s)` — `r` and `s` zero-padded to 32 bytes,
the recovery byte derived from `v` with no range check.  (The `nil` pointer
guard has no counterpart.) -/
def getSignatureFromRLPTX (st : SignedEthTx) (chainID : Nat) : List Nat :=
  natToBytesBE32 st.r ++ natToBytesBE32 st.s ++ [recoveryByte st.v chainID]

/-- `EncodeRawTx`: converts the action to an Ethereum transaction, signs it
under EIP-155 and serializes the signed result to the wire string.
(`actionToRLP` is the identity here because the action is already given
through its six accessors.) -/
def EncodeRawTx (parseAddr : String → Option (List Nat)) (act : RlpTx)
    (sk chainID : Nat) : Except CodecErr WireStr :=
  match RlpToEthTx parseAddr act with
  | .error e => .error e
  | .ok rawTx => .ok ⟨some (signEth rawTx sk chainID)⟩

/-- `DecodeRawTx`: hex/RLP-decodes the wire string, extracts the signature
via `getSignatureFromRLPTX`, recomputes the EIP-155 hash and recovers the
signer's public key. -/
def DecodeRawTx (w : WireStr) (chainID : Nat) :
    Except CodecErr (SignedEthTx × List Nat × Nat) :=
  match w.decoded with
  | none => .error .malformedRLP
  | some tx =>
    match recoverPubkeyBytes (eip155Hash tx.tx chainID)
        (getSignatureFromRLPTX tx chainID) with
    | none => .error .recoveryFailed
    | some pk => .ok (tx, getSignatureFromRLPTX tx chainID, pk)

/-- `EncodeRawTx` followed by `DecodeRawTx` with the same chain ID. -/
def encodeThenDecode (parseAddr : String → Option (List Nat)) (act : RlpTx)
    (sk chainID : Nat) : Except CodecErr (SignedEthTx × List Nat × Nat) :=
  match EncodeRawTx parseAddr act sk chainID with
  | .error e => .error e
  | .ok w => DecodeRawTx w chainID

/-! ## Supporting lemmas for the codec -/

theorem eip155Hash_lt (t : EthTx) (c : Nat) : eip155Hash t c < 2 ^ 256 :=
  hashFold_lt _

theorem rlpToEthTx_empty (parseAddr : String → Option (List Nat)) (act : RlpTx)
    (h : act.recipient = EmptyAddress) :
    RlpToEthTx parseAddr act =
      .ok { nonce := act.nonce, gasPrice := act.gasPrice, gasLimit := act.gasLimit
            toAddr := none, value := act.amount, data := act.payload } := by
  simp [RlpToEthTx, h]

theorem rlpToEthTx_some (parseAddr : String → Option (List Nat)) (act : RlpTx)
    (a : List Nat) (hne : act.recipient ≠ EmptyAddress)
    (ha : parseAddr act.recipient = some a) :
    RlpToEthTx parseAddr act =
      .ok { nonce := act.nonce, gasPrice := act.gasPrice, gasLimit := act.gasLimit
            toAddr := some a, value := act.amount, data := act.payload } := by
  simp [RlpToEthTx, hne, ha]

theorem rlpToEthTx_none (parseAddr : String → Option (List Nat)) (act : RlpTx)
    (hne : act.recipient ≠ EmptyAddress) (ha : parseAddr act.recipient = none) :
    RlpToEthTx parseAddr act = .error (.invalidAddress act.recipient) := by
  simp [RlpToEthTx, hne, ha]

theorem rlpToEthTx_error_shape (parseAddr : String → Option (List Nat)) (act : RlpTx)
    (e : CodecErr) (h : RlpToEthTx parseAddr act = .error e) :
    act.recipient ≠ EmptyAddress ∧ parseAddr act.recipient = none ∧
      e = .invalidAddress act.recipient := by
  by_cases hne : act.recipient = EmptyAddress
  · rw [rlpToEthTx_empty parseAddr act hne] at h; cases h
  · cases ha : parseAddr act.recipient with
    | none =>
      refine ⟨hne, rfl, ?_⟩
      rw [rlpToEthTx_none parseAddr act hne ha] at h
      injection h with h2
      exact h2.symm
    | some a => rw [rlpToEthTx_some parseAddr act a hne ha] at h; cases h

theorem recoveryByte_eip155V (recid c : Nat) (hr : recid ≤ 1) (hc : 0 < c) :
    recoveryByte (eip155V recid c) c = recid + 27 := by
  have h35 : (recid + 35) % 256 = recid + 35 := Nat.mod_eq_of_lt (by omega)
  have hcne : c ≠ 0 := by omega
  rw [eip155V, if_pos hcne, h35, recoveryByte]
  have hcast : ((recid + 35 + 2 * c : Nat) : Int) - 2 * (c : Int) - 8 =
      ((recid : Int) + 27) := by push_cast; ring
  rw [hcast]
  have hlt : ((recid : Int) + 27) < 2 ^ 32 := by omega
  rw [Int.emod_eq_of_lt (by omega) hlt]
  omega

theorem recoveryByte_eip155V_chain0 (recid : Nat) (hr : recid ≤ 1) :
    recoveryByte (eip155V recid 0) 0 = recid + 19 := by
  have h27 : (recid + 27) % 256 = recid + 27 := Nat.mod_eq_of_lt (by omega)
  rw [eip155V, if_neg (by simp), h27, recoveryByte]
  have hcast : ((recid + 27 : Nat) : Int) - 2 * ((0 : Nat) : Int) - 8 =
      ((recid : Int) + 19) := by push_cast; ring
  rw [hcast]
  rw [Int.emod_eq_of_lt (by omega) (by omega)]
  omega

theorem normalizeSigByte_add27 (recid : Nat) : normalizeSigByte (recid + 27) = recid := by
  simp [normalizeSigByte]

/-- Recovery succeeds on the signature reassembled from an EIP-155-signed
transaction and returns the signer's public key. -/
theorem recover_getSig (t : EthTx) (sk c : Nat) (hpk : pubkeyOf sk < 2 ^ 256)
    (hc : 0 < c) :
    recoverPubkeyBytes (eip155Hash t c) (getSignatureFromRLPTX (signEth t sk c) c) =
      some (pubkeyOf sk) := by
  have hh : eip155Hash t c < 2 ^ 256 := eip155Hash_lt t c
  have hr2 : (sk + eip155Hash t c) % 2 = 0 ∨ (sk + eip155Hash t c) % 2 = 1 :=
    Nat.mod_two_eq_zero_or_one _
  have hrle : (sk + eip155Hash t c) % 2 ≤ 1 := by rcases hr2 with h | h <;> omega
  have hb : recoveryByte (eip155V ((sk + eip155Hash t c) % 2) c) c =
      (sk + eip155Hash t c) % 2 + 27 := recoveryByte_eip155V _ c hrle hc
  have hsig : getSignatureFromRLPTX (signEth t sk c) c =
      natToBytesBE32 (pubkeyOf sk) ++ natToBytesBE32 (eip155Hash t c) ++
        [(sk + eip155Hash t c) % 2 + 27] := by
    simp only [getSignatureFromRLPTX, signEth, hb]
  obtain ⟨h1, h2, h3, h4⟩ := sigParts (natToBytesBE32 (pubkeyOf sk))
    (natToBytesBE32 (eip155Hash t c)) ((sk + eip155Hash t c) % 2 + 27)
    (natToBytesBE32_length _) (natToBytesBE32_length _)
  rw [hsig]
  unfold recoverPubkeyBytes
  rw [h3, h4, h1, h2, normalizeSigByte_add27,
    bytesToNatBE_natToBytesBE32 _ hpk, bytesToNatBE_natToBytesBE32 _ hh,
    Nat.mod_eq_of_lt hh, if_pos rfl, if_pos ⟨hr2, rfl⟩]

theorem rlpToEthTx_ok_of_valid (parseAddr : String → Option (List Nat)) (act : RlpTx)
    (hrec : act.recipient = EmptyAddress ∨ (parseAddr act.recipient).isSome) :
    ∃ t, RlpToEthTx parseAddr act = .ok t ∧ t.nonce = act.nonce ∧
      t.gasPrice = act.gasPrice ∧ t.gasLimit = act.gasLimit ∧
      t.value = act.amount ∧ t.data = act.payload := by
  by_cases hne : act.recipient = EmptyAddress
  · exact ⟨_, rlpToEthTx_empty parseAddr act hne, rfl, rfl, rfl, rfl, rfl⟩
  · rcases hrec with he | hs
    · exact absurd he hne
    · rcases Option.isSome_iff_exists.mp hs with ⟨a, ha⟩
      exact ⟨_, rlpToEthTx_some parseAddr act a hne ha, rfl, rfl, rfl, rfl, rfl⟩

/-- C1: for every valid action (empty or parseable recipient), private key and
positive chain ID, `DecodeRawTx` applied to the output of `EncodeRawTx` with the
same chain ID recovers the public key of the signing key, and the decoded
transaction's nonce, gas limit, gas price, value and payload equal the
action's.  (Chain ID 0 is excluded: under EIP-155 it denotes the absence of a
chain ID and degenerates the signer.) -/
theorem decodeRawTx_encodeRawTx_roundtrip (parseAddr : String → Option (List Nat))
    (act : RlpTx) (sk c : Nat) (hpk : pubkeyOf sk < 2 ^ 256) (hc : 0 < c)
    (hrec : act.recipient = EmptyAddress ∨ (parseAddr act.recipient).isSome) :
    ∃ st sig, encodeThenDecode parseAddr act sk c = .ok (st, sig, pubkeyOf sk) ∧
      st.tx.nonce = act.nonce ∧ st.tx.gasLimit = act.gasLimit ∧
      st.tx.gasPrice = act.gasPrice ∧ st.tx.value = act.amount ∧
      st.tx.data = act.payload := by
  obtain ⟨t, ht, hn, hg, hl, hv, hd⟩ := rlpToEthTx_ok_of_valid parseAddr act hrec
  refine ⟨signEth t sk c, getSignatureFromRLPTX (signEth t sk c) c, ?_, hn, hl, hg, hv, hd⟩
  unfold encodeThenDecode EncodeRawTx
  rw [ht]
  show DecodeRawTx ⟨some (signEth t sk c)⟩ c = _
  unfold DecodeRawTx
  show (match recoverPubkeyBytes (eip155Hash (signEth t sk c).tx c)
      (getSignatureFromRLPTX (signEth t sk c) c) with
    | none => Except.error CodecErr.recoveryFailed
    | some pk => Except.ok ((signEth t sk c), getSignatureFromRLPTX (signEth t sk c) c, pk)) = _
  rw [show (signEth t sk c).tx = t from rfl, recover_getSig t sk c hpk hc]

/-- Concrete parse function for witnesses: accepts one native address string. -/
def pa0 : String → Option (List Nat) := fun s =>
  if s = "io1qyqsqqqqtest" then some (List.replicate 20 7) else none

/-- Concrete action with empty recipient (contract creation). -/
def act0 : RlpTx :=
  { nonce := 1, gasPrice := 2, gasLimit := 3, recipient := "", amount := 4
    payload := [170, 187] }

/-- Witness for C1 at a concrete action, key 9 and chain ID 1. -/
theorem decodeRawTx_encodeRawTx_roundtrip_witness :
    ∃ st sig, encodeThenDecode pa0 act0 9 1 = .ok (st, sig, pubkeyOf 9) ∧
      st.tx.nonce = act0.nonce ∧ st.tx.gasLimit = act0.gasLimit ∧
      st.tx.gasPrice = act0.gasPrice ∧ st.tx.value = act0.amount ∧
      st.tx.data = act0.payload :=
  decodeRawTx_encodeRawTx_roundtrip pa0 act0 9 1 (by decide) (by decide) (Or.inl rfl)

/-! ## C2: recovery-id derivation in `DecodeRawTx` -/

/-- Concrete decoded transaction for the C2 counterexample: a well-formed
EIP-155 signature for chain ID 1 (`v = 37`, so `v − 2·chainID − 8 = 27`). -/
def ethTx2 : EthTx :=
  { nonce := 1, gasPrice := 2, gasLimit := 3, toAddr := none, value := 4
    data := [5] }

/-- The signed transaction carried by the C2 counterexample wire string. -/
def st2 : SignedEthTx := { tx := ethTx2, v := 37, r := 42, s := eip155Hash ethTx2 1 }

/-- The C2 counterexample wire string (RLP-decodable by construction). -/
def w2 : WireStr := ⟨some st2⟩

/-- C2 counterexample: an RLP-decodable input whose derived recovery id is 27
(not 0 or 1), on which `DecodeRawTx` nevertheless succeeds and returns a
recovered public key — it performs no chain-ID-mismatch rejection. -/
theorem decodeRawTx_counterexample_no_range_check :
    recoveryByte st2.v 1 = 27 ∧
    ¬(recoveryByte st2.v 1 = 0 ∨ recoveryByte st2.v 1 = 1) ∧
    DecodeRawTx w2 1 = .ok (st2, getSignatureFromRLPTX st2 1, 42) := by
  refine ⟨by decide, by decide, ?_⟩
  rfl

/-- C2 (amended): `DecodeRawTx` derives the recovery byte as
`v − 2·chainID − 8` (32-bit wrap-around, truncated to a byte) and performs no
range check on it; its only errors are `malformedRLP` and `recoveryFailed` —
it never fails with a chain-ID-mismatch error. -/
theorem decodeRawTx_recovery_byte_no_check (w : WireStr) (c : Nat) :
    (∀ e, DecodeRawTx w c = .error e → e = .malformedRLP ∨ e = .recoveryFailed) ∧
    DecodeRawTx w c ≠ .error .chainIDMismatch ∧
    (∀ tx, w.decoded = some tx →
      ((getSignatureFromRLPTX tx c).drop 64).headD 0 = recoveryByte tx.v c ∧
      (getSignatureFromRLPTX tx c).length = 65 ∧
      ∀ pk, recoverPubkeyBytes (eip155Hash tx.tx c) (getSignatureFromRLPTX tx c) =
          some pk → DecodeRawTx w c = .ok (tx, getSignatureFromRLPTX tx c, pk)) := by
  have herr : ∀ e, DecodeRawTx w c = .error e →
      e = .malformedRLP ∨ e = .recoveryFailed := by
    intro e he
    unfold DecodeRawTx at he
    cases hd : w.decoded with
    | none => rw [hd] at he; injection he with h2; exact Or.inl h2.symm
    | some tx =>
      rw [hd] at he
      dsimp only at he
      cases hr : recoverPubkeyBytes (eip155Hash tx.tx c) (getSignatureFromRLPTX tx c) with
      | none => rw [hr] at he; injection he with h2; exact Or.inr h2.symm
      | some pk => rw [hr] at he; cases he
  refine ⟨herr, ?_, ?_⟩
  · intro hcm
    rcases herr _ hcm with h | h <;> cases h
  · intro tx hd
    obtain ⟨h1, h2, h3, h4⟩ := sigParts (natToBytesBE32 tx.r) (natToBytesBE32 tx.s)
      (recoveryByte tx.v c) (natToBytesBE32_length _) (natToBytesBE32_length _)
    refine ⟨h3, h4, ?_⟩
    intro pk hr
    unfold DecodeRawTx
    rw [hd]
    dsimp only
    rw [hr]

/-- Witness for the amended C2 theorem at the concrete wire string `w2`. -/
theorem decodeRawTx_recovery_byte_no_check_witness :
    ((getSignatureFromRLPTX st2 1).drop 64).headD 0 = recoveryByte st2.v 1 ∧
    DecodeRawTx w2 1 ≠ .error .chainIDMismatch :=
  ⟨((decodeRawTx_recovery_byte_no_check w2 1).2.2 st2 rfl).1,
    (decodeRawTx_recovery_byte_no_check w2 1).2.1⟩

/-! ## C3: signature-length handling in `rlpSignedHash` -/

/-- C3: `rlpSignedHash` fails with the invalid-signature-length error for every
signature whose length is not 65, before looking at anything else; and a
signature of length exactly 65 is never rejected with a length error. -/
theorem rlpSignedHash_length_check (parseAddr : String → Option (List Nat))
    (tx : RlpTx) (c : Nat) (sig : List Nat) :
    (sig.length ≠ 65 → rlpSignedHash parseAddr tx c sig =
      .error (.invalidSigLength sig.length)) ∧
    (sig.length = 65 → ∀ n, rlpSignedHash parseAddr tx c sig ≠
      .error (.invalidSigLength n)) := by
  constructor
  · intro hlen
    rw [rlpSignedHash, reconstructSignedRlpTxFromSig, if_pos hlen]
  · intro hlen n hcon
    rw [rlpSignedHash, reconstructSignedRlpTxFromSig, if_neg (by omega)] at hcon
    cases he : RlpToEthTx parseAddr tx with
    | error e =>
      rw [he] at hcon
      dsimp only at hcon
      injection hcon with h2
      obtain ⟨-, -, hshape⟩ := rlpToEthTx_error_shape parseAddr tx e he
      rw [hshape] at h2
      cases h2
    | ok rawTx =>
      rw [he] at hcon
      cases hcon

/-- Witness for C3: a 3-byte signature is rejected with the length error, and
a 65-byte signature is not rejected for length. -/
theorem rlpSignedHash_length_check_witness :
    rlpSignedHash pa0 act0 1 [1, 2, 3] = .error (.invalidSigLength 3) ∧
    rlpSignedHash pa0 act0 1 (List.replicate 65 0) ≠
      .error (.invalidSigLength 65) :=
  ⟨(rlpSignedHash_length_check pa0 act0 1 [1, 2, 3]).1 (by decide),
    (rlpSignedHash_length_check pa0 act0 1 (List.replicate 65 0)).2 (by decide) 65⟩

/-! ## C4: recovery-byte normalization in `reconstructSignedRlpTxFromSig` -/

/-- A 65-byte signature whose recovery byte is 2. -/
def sig2 : List Nat := List.replicate 64 0 ++ [2]

/-- C4 counterexample: the normalization only subtracts 27 from bytes ≥ 27, so
the recovery byte 2 of a 65-byte signature stays 2 — not in {0, 1} — and
`reconstructSignedRlpTxFromSig` encodes it into `v = (2+35)%256 + 2·1 = 39`,
which is neither of the two values an id in {0, 1} would produce. -/
theorem normalizeSigByte_counterexample :
    normalizeSigByte 2 = 2 ∧
    ¬(normalizeSigByte 2 = 0 ∨ normalizeSigByte 2 = 1) ∧
    reconstructSignedRlpTxFromSig pa0 act0 1 sig2 =
      .ok { tx := { nonce := 1, gasPrice := 2, gasLimit := 3, toAddr := none
                    value := 4, data := [170, 187] }
            r := 0, s := 0, v := 39 } ∧
    ¬(39 = eip155V 0 1 ∨ 39 = eip155V 1 1) := by
  refine ⟨by decide, by decide, by rfl, by decide⟩

/-- C4 (amended): bytes ≥ 27 are reduced by 27 (legacy 27 and 28 map to 0 and
1), bytes < 27 pass through unchanged; the normalized byte is in {0, 1} if and
only if the original byte is in {0, 1, 27, 28}; and the `v` of every
transaction reconstructed by `reconstructSignedRlpTxFromSig` carries exactly
the normalized byte of the signature. -/
theorem normalizeSigByte_spec (b : Nat) (hb : b < 256) :
    (27 ≤ b → normalizeSigByte b = b - 27) ∧
    (b < 27 → normalizeSigByte b = b) ∧
    ((normalizeSigByte b = 0 ∨ normalizeSigByte b = 1) ↔
      (b = 0 ∨ b = 1 ∨ b = 27 ∨ b = 28)) ∧
    (∀ (parseAddr : String → Option (List Nat)) (tx : RlpTx) (c : Nat)
        (sig : List Nat), sig.length = 65 → (sig.drop 64).headD 0 = b →
      ∀ st, reconstructSignedRlpTxFromSig parseAddr tx c sig = .ok st →
        st.v = eip155V (normalizeSigByte b) c) := by
  refine ⟨fun h => by simp [normalizeSigByte, h], fun h => by simp [normalizeSigByte]; omega,
    ?_, ?_⟩
  · unfold normalizeSigByte
    by_cases h : 27 ≤ b <;> simp [h] <;> omega
  · intro parseAddr tx c sig hlen hbyte st hok
    rw [reconstructSignedRlpTxFromSig, if_neg (by omega)] at hok
    cases he : RlpToEthTx parseAddr tx with
    | error e => rw [he] at hok; cases hok
    | ok rawTx =>
      rw [he] at hok
      dsimp only at hok
      injection hok with h2
      rw [← h2, hbyte]

/-- Witness for the amended C4 theorem at byte 28 (legacy value). -/
theorem normalizeSigByte_spec_witness :
    normalizeSigByte 28 = 28 - 27 ∧
    ((normalizeSigByte 28 = 0 ∨ normalizeSigByte 28 = 1) ↔
      (28 = 0 ∨ 28 = 1 ∨ 28 = 27 ∨ 28 = 28)) :=
  ⟨(normalizeSigByte_spec 28 (by decide)).1 (by decide),
    (normalizeSigByte_spec 28 (by decide)).2.2.1⟩

/-! ## C5: recipient handling in `RlpToEthTx` -/

/-- C5: `RlpToEthTx` maps an empty recipient to a contract creation (no `to`
field), parses a non-empty recipient into a 20-byte address, and fails with
the invalid-address error exactly when the non-empty recipient cannot be
parsed. -/
theorem rlpToEthTx_recipient_spec (parseAddr : String → Option (List Nat))
    (act : RlpTx) :
    (act.recipient = EmptyAddress → RlpToEthTx parseAddr act =
      .ok { nonce := act.nonce, gasPrice := act.gasPrice, gasLimit := act.gasLimit
            toAddr := none, value := act.amount, data := act.payload }) ∧
    (∀ a, act.recipient ≠ EmptyAddress → parseAddr act.recipient = some a →
      RlpToEthTx parseAddr act =
        .ok { nonce := act.nonce, gasPrice := act.gasPrice, gasLimit := act.gasLimit
              toAddr := some a, value := act.amount, data := act.payload }) ∧
    (act.recipient ≠ EmptyAddress → parseAddr act.recipient = none →
      RlpToEthTx parseAddr act = .error (.invalidAddress act.recipient)) ∧
    (∀ e, RlpToEthTx parseAddr act = .error e →
      act.recipient ≠ EmptyAddress ∧ parseAddr act.recipient = none ∧
        e = .invalidAddress act.recipient) :=
  ⟨rlpToEthTx_empty parseAddr act,
    fun a hne ha => rlpToEthTx_some parseAddr act a hne ha,
    rlpToEthTx_none parseAddr act,
    rlpToEthTx_error_shape parseAddr act⟩

/-- Concrete action with the recipient accepted by `pa0`. -/
def act1 : RlpTx :=
  { nonce := 1, gasPrice := 2, gasLimit := 3, recipient := "io1qyqsqqqqtest"
    amount := 4, payload := [] }

/-- Concrete action with an unparseable non-empty recipient. -/
def actBad : RlpTx :=
  { nonce := 1, gasPrice := 2, gasLimit := 3, recipient := "not-an-address"
    amount := 4, payload := [] }

/-- Witness for C5: creation for the empty recipient, parsed address for a
valid recipient, invalid-address error for an unparseable one. -/
theorem rlpToEthTx_recipient_spec_witness :
    RlpToEthTx pa0 act0 =
      .ok { nonce := 1, gasPrice := 2, gasLimit := 3, toAddr := none, value := 4
            data := [170, 187] } ∧
    RlpToEthTx pa0 act1 =
      .ok { nonce := 1, gasPrice := 2, gasLimit := 3
            toAddr := some (List.replicate 20 7), value := 4, data := [] } ∧
    RlpToEthTx pa0 actBad = .error (.invalidAddress "not-an-address") :=
  ⟨(rlpToEthTx_recipient_spec pa0 act0).1 rfl,
    (rlpToEthTx_recipient_spec pa0 act1).2.1 (List.replicate 20 7) (by decide) (by decide),
    (rlpToEthTx_recipient_spec pa0 actBad).2.2.1 (by decide) (by decide)⟩

/-! ## C6: `getBlockByNumber` (web3 handler model)

The web3 handler itself is not among the provided sources; only its
integrity tests are.  The model below follows the spec (§4.4) and the
behavior pinned by `TestGetBlockByNumberIntegrity` /
`TestGetBlockTransactionCountByNumberIntegrity`: heights are 1-based,
a height beyond the tip yields the absent sentinel, `fullTransactions=false`
lists one hash per stored transaction, and `fullTransactions=true` lists one
full object per transaction that is convertible to the Ethereum view
(the test expects 1 full object but 2 hashes for block 1). -/

/-- One element of a block result's transaction list: a bare hash or a full
transaction object. -/
inductive TxView
  | txHash
  | txFull
deriving DecidableEq

/-- Modelled from the spec: a stored block, each transaction reduced to
whether it converts to the Ethereum transaction view. -/
structure ModelBlock where
  txs : List Bool
deriving DecidableEq

/-- Modelled from the spec: `getBlockByNumber` over a chain given as the list
of its blocks (index `i` holds height `i+1`). -/
def getBlockByNumber (chain : List ModelBlock) (height : Nat) (fullTx : Bool) :
    Option (List TxView) :=
  if height = 0 ∨ chain.length < height then none
  else
    match chain.get? (height - 1) with
    | none => none
    | some blk =>
      some (if fullTx then
          blk.txs.filterMap (fun conv => if conv then some TxView.txFull else none)
        else blk.txs.map (fun _ => TxView.txHash))

theorem filterMap_txFull_length (l : List Bool) :
    (l.filterMap (fun conv => if conv then some TxView.txFull else none)).length =
      (l.filter (fun b => b)).length := by
  induction l with
  | nil => rfl
  | cons a t ih => cases a <;> simp [ih]

/-- The chain fixture of the integrity tests: four blocks, block 1 holding two
transactions of which one is not convertible to the Ethereum view. -/
def chain0 : List ModelBlock := [⟨[true, false]⟩, ⟨[true]⟩, ⟨[true]⟩, ⟨[true]⟩]

/-- C6 counterexample: on the test fixture, block 1 has 2 transactions, yet
`fullTransactions=true` returns a list of length 1 — the flag does change the
count, contradicting the claim (heights beyond the tip do return the absent
sentinel). -/
theorem getBlockByNumber_counterexample :
    (getBlockByNumber chain0 1 true).map List.length = some 1 ∧
    (getBlockByNumber chain0 1 false).map List.length = some 2 ∧
    ¬((getBlockByNumber chain0 1 true).map List.length = some 2) ∧
    getBlockByNumber chain0 10 false = none := by
  refine ⟨rfl, rfl, by decide, rfl⟩

/-- C6 (amended): a height beyond the tip returns the absent sentinel; for an
existing block, `fullTransactions=false` yields exactly one hash per stored
transaction, while `fullTransactions=true` yields one object per transaction
convertible to the Ethereum view — at most, and possibly fewer than, the
block's transaction count. -/
theorem getBlockByNumber_spec (chain : List ModelBlock) (height : Nat) :
    (chain.length < height → ∀ fullTx, getBlockByNumber chain height fullTx = none) ∧
    (∀ blk, 1 ≤ height → chain.get? (height - 1) = some blk →
      (getBlockByNumber chain height false).map List.length =
        some blk.txs.length ∧
      (getBlockByNumber chain height true).map List.length =
        some (blk.txs.filter (fun b => b)).length ∧
      (blk.txs.filter (fun b => b)).length ≤ blk.txs.length) := by
  constructor
  · intro hbeyond fullTx
    rw [getBlockByNumber, if_pos (Or.inr hbeyond)]
  · intro blk h1 hget
    have hcond : ¬(height = 0 ∨ chain.length < height) := by
      rintro (h0 | hgt)
      · omega
      · have : chain.get? (height - 1) = none := List.get?_eq_none.mpr (by omega)
        rw [this] at hget; cases hget
    refine ⟨?_, ?_, List.length_filter_le _ _⟩
    · rw [getBlockByNumber, if_neg hcond, hget]
      simp
    · rw [getBlockByNumber, if_neg hcond, hget]
      simp [filterMap_txFull_length]

/-- Witness for the amended C6 theorem on the test fixture at height 2. -/
theorem getBlockByNumber_spec_witness :
    (getBlockByNumber chain0 2 false).map List.length = some 1 ∧
    getBlockByNumber chain0 7 true = none :=
  ⟨((getBlockByNumber_spec chain0 2).2 ⟨[true]⟩ (by decide) rfl).1,
    (getBlockByNumber_spec chain0 7).1 (by decide) true⟩

/-! ## C7: filter polling (filter-manager model)

The filter manager is not among the provided sources; only
`TestGetFilterChangesIntegrity` is.  The model follows the spec (§4.3) and
the test: a log filter's cursor starts at `FromBlock` and each poll returns
the matching logs in heights `[cursor, tip]` then moves the cursor to
`tip + 1`; a block filter's cursor starts at the creation-time tip and each
poll returns the block hashes in `[cursor, tip]` then moves the cursor to
`tip + 1` (the test sees 1 hash on the first poll and 0 on the second). -/

/-- Modelled from the spec: logs stored at one height of the chain (index `i`
holds height `i + 1`; each log reduced to an id tested by the criteria). -/
def logsAt (chain : List (List Nat)) (h : Nat) : List Nat :=
  (chain.get? (h - 1)).getD []

/-- Modelled from the spec: the matching logs in heights `lo..hi`, ascending. -/
def logsInRange (chain : List (List Nat)) (p : Nat → Bool) (lo hi : Nat) :
    List Nat :=
  ((List.range' lo (hi + 1 - lo)).map (fun h => (logsAt chain h).filter p)).flatten

/-- Modelled from the spec: `newFilter` — a fresh log filter's cursor is its
`FromBlock`. -/
def newFilter (fromBlock : Nat) : Nat := fromBlock

/-- Modelled from the spec: `getFilterChanges` on a log filter — returns the
matching logs in `[cursor, tip]` and the advanced cursor. -/
def getFilterChangesLog (chain : List (List Nat)) (p : Nat → Bool)
    (cursor : Nat) : List Nat × Nat :=
  (logsInRange chain p cursor chain.length, chain.length + 1)

/-- Modelled from the spec: the deterministic hash of the block at a height. -/
def modelBlockHash (h : Nat) : Nat := 2 * h + 1

/-- Modelled from the spec: `newBlockFilter` — cursor at the current tip. -/
def newBlockFilter (chain : List (List Nat)) : Nat := chain.length

/-- Modelled from the spec: `getFilterChanges` on a block filter — the hashes
of blocks `[cursor, tip]` and the advanced cursor. -/
def getFilterChangesBlock (chain : List (List Nat)) (cursor : Nat) :
    List Nat × Nat :=
  ((List.range' cursor (chain.length + 1 - cursor)).map modelBlockHash,
    chain.length + 1)

/-- C7: the first poll of a fresh log filter with `FromBlock = h` returns
exactly the matching logs in `[h, tip]`; an immediate second poll with no new
blocks returns the empty sequence; and a block filter likewise reports each
block hash exactly once across consecutive polls. -/
theorem getFilterChanges_exactly_once (chain : List (List Nat)) (p : Nat → Bool)
    (h : Nat) :
    (getFilterChangesLog chain p (newFilter h)).1 =
      logsInRange chain p h chain.length ∧
    (getFilterChangesLog chain p
      ((getFilterChangesLog chain p (newFilter h)).2)).1 = [] ∧
    (getFilterChangesBlock chain (newBlockFilter chain)).1 =
      [modelBlockHash chain.length] ∧
    (getFilterChangesBlock chain
      ((getFilterChangesBlock chain (newBlockFilter chain)).2)).1 = [] := by
  refine ⟨rfl, ?_, ?_, ?_⟩
  · show logsInRange chain p (chain.length + 1) chain.length = []
    rw [logsInRange, Nat.sub_self]
    rfl
  · show (List.range' chain.length (chain.length + 1 - chain.length)).map
      modelBlockHash = _
    rw [Nat.add_sub_cancel_left]
    rfl
  · show (List.range' (chain.length + 1) (chain.length + 1 - (chain.length + 1))).map
      modelBlockHash = []
    rw [Nat.sub_self]
    rfl

/-! ## C8: gas estimation (handler model)

`estimateGas` of the handler is not among the provided sources; only
`TestEstimateGasIntegrity` is.  The model follows the spec (§4.4, §5): the
gas needed by a call is the 21000 base transfer cost plus the execution cost
of a non-empty payload (an oracle), and the estimator searches upward from
the base cost for the least sufficient amount, as the spec's speculative
binary search does. -/

/-- The Ethereum base transfer cost. -/
def baseTransferGas : Nat := 21000

/-- Modelled from the spec: the gas a call needs — the base cost, plus the
execution cost of a non-empty contract-invoking payload given by the
execution oracle `execCost`. -/
def requiredGas (execCost : List Nat → Nat) (payload : List Nat) : Nat :=
  if payload.isEmpty then baseTransferGas else baseTransferGas + execCost payload

/-- Whether a speculative execution with gas budget `n` succeeds. -/
def gasSufficient (execCost : List Nat → Nat) (payload : List Nat) (n : Nat) :
    Bool :=
  decide (requiredGas execCost payload ≤ n)

/-- Upward search for the least accepted budget, with bounded fuel. -/
def searchUpFrom (p : Nat → Bool) : Nat → Nat → Nat
  | 0, n => n
  | fuel + 1, n => if p n then n else searchUpFrom p fuel (n + 1)

/-- Modelled from the spec: `estimateGas` — the least sufficient gas budget,
searched from the base transfer cost. -/
def estimateGas (execCost : List Nat → Nat) (payload : List Nat) (fuel : Nat) :
    Nat :=
  searchUpFrom (gasSufficient execCost payload) fuel baseTransferGas

theorem searchUpFrom_exact (execCost : List Nat → Nat) (payload : List Nat) :
    ∀ (fuel n : Nat), n ≤ requiredGas execCost payload →
      requiredGas execCost payload ≤ n + fuel →
      searchUpFrom (gasSufficient execCost payload) fuel n =
        requiredGas execCost payload := by
  intro fuel
  induction fuel with
  | zero =>
    intro n hlo hhi
    have : n = requiredGas execCost payload := by omega
    simpa [searchUpFrom] using this
  | succ fuel ih =>
    intro n hlo hhi
    rw [searchUpFrom]
    by_cases hp : requiredGas execCost payload ≤ n
    · rw [if_pos (by simpa [gasSufficient] using hp)]
      omega
    · rw [if_neg (by simpa [gasSufficient] using hp)]
      exact ih (n + 1) (by omega) (by omega)

theorem baseTransferGas_le_requiredGas (execCost : List Nat → Nat)
    (payload : List Nat) : baseTransferGas ≤ requiredGas execCost payload := by
  rw [requiredGas]
  by_cases h : payload.isEmpty <;> simp [h]

/-- C8: with enough search fuel, `estimateGas` on a call with no payload is
exactly the 21000 base transfer cost; on any call it is at least the base
cost; and it never under-states the gas the call needs. -/
theorem estimateGas_spec (execCost : List Nat → Nat) (payload : List Nat)
    (fuel : Nat) (hfuel : requiredGas execCost payload ≤ baseTransferGas + fuel) :
    (payload = [] → estimateGas execCost payload fuel = 21000) ∧
    baseTransferGas ≤ estimateGas execCost payload fuel ∧
    requiredGas execCost payload ≤ estimateGas execCost payload fuel := by
  have hle := baseTransferGas_le_requiredGas execCost payload
  have heq : estimateGas execCost payload fuel = requiredGas execCost payload :=
    searchUpFrom_exact execCost payload fuel baseTransferGas hle hfuel
  refine ⟨?_, ?_, ?_⟩
  · intro hempty
    rw [heq, requiredGas, hempty]
    rfl
  · rw [heq]; exact hle
  · rw [heq]

/-- Concrete execution-cost oracle for the C8 witness. -/
def execCost0 : List Nat → Nat := fun l => 100 * l.length

/-- Witness for C8: an empty payload estimates to exactly 21000; a non-empty
payload estimates to at least the base cost. -/
theorem estimateGas_spec_witness :
    estimateGas execCost0 [] 1000 = 21000 ∧
    baseTransferGas ≤ estimateGas execCost0 [1, 2, 3] 1000 :=
  ⟨(estimateGas_spec execCost0 [] 1000 (by decide)).1 rfl,
    (estimateGas_spec execCost0 [1, 2, 3] 1000 (by decide)).2.1⟩

/-! ## The `Transfer` action (`action/transfer.go`) -/

/-- `TransferPayloadGas`: transfer payload gas per byte. -/
def TransferPayloadGas : Nat := 100

/-- `TransferBaseIntrinsicGas`: base intrinsic gas for a transfer. -/
def TransferBaseIntrinsicGas : Nat := 10000

/-- The `Transfer` struct: the `AbstractAction` fields it uses plus amount,
recipient and payload (`amount` and `gasPrice` are big.Ints, embedded as
`Int`). -/
structure Transfer where
  nonce : Nat
  gasLimit : Nat
  gasPrice : Int
  amount : Int
  recipient : String
  payload : List Nat
deriving DecidableEq

/-- The largest uint64 value. -/
def U64Max : Nat := 2 ^ 64 - 1

/-- Modelled from the spec: `CalculateIntrinsicGas` of the action package is
not among the provided sources; modelled as the overflow-checked
`base + payloadGas · payloadSize` on uint64 that `Transfer.IntrinsicGas`
relies on. -/
def CalculateIntrinsicGas (base payloadGas size : Nat) : Except String Nat :=
  if payloadGas ≠ 0 ∧ (U64Max - base) / payloadGas < size then
    .error "out of gas"
  else .ok (base + payloadGas * size)

/-- `Transfer.IntrinsicGas`: base transfer gas plus payload gas per byte. -/
def Transfer.IntrinsicGas (tsf : Transfer) : Except String Nat :=
  CalculateIntrinsicGas TransferBaseIntrinsicGas TransferPayloadGas
    tsf.payload.length

/-- `Transfer.Cost`: amount plus gas price times intrinsic gas. -/
def Transfer.Cost (tsf : Transfer) : Except String Int :=
  match tsf.IntrinsicGas with
  | .error e => .error e
  | .ok ig => .ok (tsf.amount + tsf.gasPrice * (ig : Int))

/-- `Transfer.ToEthTx`: parses the recipient unconditionally — no empty-string
check — and always builds a transaction with a `to` address. -/
def Transfer.ToEthTx (parseAddr : String → Option (List Nat)) (tsf : Transfer) :
    Except CodecErr EthTx :=
  match parseAddr tsf.recipient with
  | none => .error (.invalidAddress tsf.recipient)
  | some a =>
    .ok { nonce := tsf.nonce, gasPrice := tsf.gasPrice, gasLimit := tsf.gasLimit
          toAddr := some a, value := tsf.amount, data := tsf.payload }

/-- The `rlpTransaction` view of a `Transfer` (its six accessors). -/
def Transfer.toRlpTx (tsf : Transfer) : RlpTx :=
  { nonce := tsf.nonce, gasPrice := tsf.gasPrice, gasLimit := tsf.gasLimit
    recipient := tsf.recipient, amount := tsf.amount, payload := tsf.payload }

/-! ## C9: `Transfer.ToEthTx` versus the generic `RlpToEthTx` -/

/-- C9: `Transfer.ToEthTx` errors on every unparseable recipient — including
the empty string, which the external address parser rejects — and a
successful conversion always carries a `to` address, never a contract
creation; the generic `RlpToEthTx` instead maps the same empty-recipient
transfer to a contract creation. -/
theorem transfer_toEthTx_never_creation (parseAddr : String → Option (List Nat))
    (tsf : Transfer) (hpe : parseAddr "" = none) :
    (parseAddr tsf.recipient = none →
      Transfer.ToEthTx parseAddr tsf = .error (.invalidAddress tsf.recipient)) ∧
    (tsf.recipient = "" →
      Transfer.ToEthTx parseAddr tsf = .error (.invalidAddress tsf.recipient)) ∧
    (∀ t, Transfer.ToEthTx parseAddr tsf = .ok t → t.toAddr.isSome) ∧
    (tsf.recipient = "" → RlpToEthTx parseAddr tsf.toRlpTx =
      .ok { nonce := tsf.nonce, gasPrice := tsf.gasPrice, gasLimit := tsf.gasLimit
            toAddr := none, value := tsf.amount, data := tsf.payload }) := by
  refine ⟨?_, ?_, ?_, ?_⟩
  · intro hnone
    rw [Transfer.ToEthTx, hnone]
  · intro hempty
    rw [Transfer.ToEthTx, hempty, hpe]
  · intro t hok
    cases ha : parseAddr tsf.recipient with
    | none => rw [Transfer.ToEthTx, ha] at hok; cases hok
    | some a =>
      rw [Transfer.ToEthTx, ha] at hok
      injection hok with h2
      rw [← h2]
      rfl
  · intro hempty
    exact rlpToEthTx_empty parseAddr tsf.toRlpTx hempty

/-- Concrete transfer with an empty recipient. -/
def tsf0 : Transfer :=
  { nonce := 1, gasLimit := 20000, gasPrice := 3, amount := 5, recipient := ""
    payload := [] }

/-- Witness for C9: the empty-recipient transfer errors through
`Transfer.ToEthTx` but becomes a contract creation through `RlpToEthTx`. -/
theorem transfer_toEthTx_never_creation_witness :
    Transfer.ToEthTx pa0 tsf0 = .error (.invalidAddress "") ∧
    RlpToEthTx pa0 tsf0.toRlpTx =
      .ok { nonce := 1, gasPrice := 3, gasLimit := 20000, toAddr := none
            value := 5, data := [] } :=
  ⟨(transfer_toEthTx_never_creation pa0 tsf0 rfl).2.1 rfl,
    (transfer_toEthTx_never_creation pa0 tsf0 rfl).2.2.2 rfl⟩

/-! ## C10: `Transfer.IntrinsicGas` and `Transfer.Cost` -/

/-- C10: when `10000 + 100·|payload|` does not overflow a uint64,
`Transfer.IntrinsicGas` is exactly that sum and `Transfer.Cost` is the amount
plus the gas price times that intrinsic gas. -/
theorem transfer_intrinsicGas_cost (tsf : Transfer)
    (h : tsf.payload.length ≤ (2 ^ 64 - 1 - 10000) / 100) :
    Transfer.IntrinsicGas tsf = .ok (10000 + 100 * tsf.payload.length) ∧
    Transfer.Cost tsf =
      .ok (tsf.amount + tsf.gasPrice *
        ((10000 + 100 * tsf.payload.length : Nat) : Int)) := by
  have hig : Transfer.IntrinsicGas tsf = .ok (10000 + 100 * tsf.payload.length) := by
    rw [Transfer.IntrinsicGas, CalculateIntrinsicGas,
      if_neg (by
        rintro ⟨-, hover⟩
        have : (U64Max - TransferBaseIntrinsicGas) / TransferPayloadGas =
            (2 ^ 64 - 1 - 10000) / 100 := rfl
        rw [this] at hover
        omega)]
    rfl
  refine ⟨hig, ?_⟩
  rw [Transfer.Cost, hig]

/-- Witness for C10 at a transfer with a 2-byte payload. -/
theorem transfer_intrinsicGas_cost_witness :
    Transfer.IntrinsicGas
      { nonce := 1, gasLimit := 20000, gasPrice := 3, amount := 5
        recipient := "", payload := [8, 9] } = .ok (10000 + 100 * 2) :=
  (transfer_intrinsicGas_cost
    { nonce := 1, gasLimit := 20000, gasPrice := 3, amount := 5
      recipient := "", payload := [8, 9] } (by decide)).1
